import Mathlib

/-!
Verification development for the Kenton repository core: the conversation
store (`conversation_manager.py`) and the API tool wrappers
(`tools/api_tool_template.py`, `tools/weather_api.py`,
`tools/mcp_api_loader.py`).

The Python code is shallowly embedded: dictionaries become association
lists, JSON values become an inductive `Json` type, wall-clock timestamps
become natural numbers (seconds), the Redis client and the HTTP requester
become explicit parameters (oracles), and Python exceptions become
`Except` values.
-/

/-- JSON values as produced by `response.json()` and returned by the tools.
Numbers are modelled as integers (the claims never depend on fractional
values). -/
inductive Json where
  | str (s : String)
  | num (n : Int)
  | bool (b : Bool)
  | null
  | arr (xs : List Json)
  | obj (fields : List (String × Json))

/-- Lookup in an association list, mirroring a Python dict read: the first
binding of the key wins. -/
def alget {α : Type} (m : List (String × α)) (k : String) : Option α :=
  (m.find? (fun p => p.1 == k)).map (fun p => p.2)

/-- Update or insert in an association list, mirroring Python dict
assignment `d[k] = v`: an existing binding is replaced in place, a new key
is appended (dicts preserve insertion order). -/
def alset {α : Type} (m : List (String × α)) (k : String) (v : α) : List (String × α) :=
  if m.any (fun p => p.1 == k) then
    m.map (fun p => if p.1 == k then (k, v) else p)
  else m ++ [(k, v)]

/-- Removal from an association list, mirroring `d.pop(k, None)`. -/
def alpop {α : Type} (m : List (String × α)) (k : String) : List (String × α) :=
  m.filter (fun p => !(p.1 == k))

/-- Field access on a JSON object (`data["k"]` when it succeeds / `"k" in data`). -/
def Json.getField : Json → String → Option Json
  | .obj fields, k => alget fields k
  | _, _ => none

/-- Python slice `xs[-m:]`. For m = 0 the slice is `xs[0:]`, the whole
list, not the empty list; for m ≥ len it is also the whole list. -/
def pySliceLast {α : Type} (m : Nat) (xs : List α) : List α :=
  if m = 0 then xs else xs.drop (xs.length - m)

/-- The `if limit: history = history[-limit:]` pattern shared by
`_get_memory_history` and `_get_redis_history`: `None` and `0` are both
falsy, so no truncation happens for either. -/
def pyLimit {α : Type} (limit : Option Nat) (xs : List α) : List α :=
  match limit with
  | none => xs
  | some l => if l = 0 then xs else pySliceLast l xs

/-! ## Conversation store (`conversation_manager.py`) -/

/-- One conversation exchange (`ConversationEntry`). The timestamp is
`time.time()` in whole seconds; metadata values are modelled as strings. -/
structure ConversationEntry where
  timestamp : Nat
  query : String
  response : String
  model : String
  metadata : List (String × String)
deriving DecidableEq, Repr

/-- State of the in-memory backend: `self.memory_store` (a
`defaultdict(list)`) and `self.memory_timestamps`. -/
structure MemoryState where
  memory_store : List (String × List ConversationEntry)
  memory_timestamps : List (String × Nat)
deriving DecidableEq, Repr

/-- Model of the Redis client as seen by `_add_redis_entry` and
`_get_redis_history`: the stored value under each key is the decoded JSON
array (the `json.dumps`/`json.loads` round trip through the external json
module is modelled as the identity), together with the TTL passed to
`setex`. The fault fields inject the exceptions a real network client can
raise on `get` and on `setex`. -/
structure RedisModel where
  store : List (String × (Nat × List ConversationEntry))
  getFault : Option String
  setexFault : Option String
deriving DecidableEq, Repr

/-- Model of `self.redis_client.get(key)`: returns the stored value, or
raises the injected exception. -/
def redis_get (c : RedisModel) (key : String) :
    Except String (Option (List ConversationEntry)) :=
  match c.getFault with
  | some e => .error e
  | none => .ok ((alget c.store key).map (fun p => p.2))

/-- Model of `self.redis_client.setex(key, ttl, value)`. -/
def redis_setex (c : RedisModel) (key : String) (ttl : Nat)
    (value : List ConversationEntry) : Except String RedisModel :=
  match c.setexFault with
  | some e => .error e
  | none => .ok { c with store := alset c.store key (ttl, value) }

/-- Embedding of `ConversationManager._add_redis_entry`. The source has no
exception handling: any exception from the client propagates. -/
def add_redis_entry (max_history ttl_seconds : Nat) (c : RedisModel)
    (session_id : String) (entry : ConversationEntry) : Except String RedisModel := do
  let key := "conversation:" ++ session_id
  let data ← redis_get c key
  let history := data.getD []
  let history := history ++ [entry]
  let history := if history.length > max_history then pySliceLast max_history history else history
  redis_setex c key ttl_seconds history

/-- Embedding of `ConversationManager._get_redis_history`. Again no
exception handling in the source: a client exception propagates instead of
yielding `[]`. -/
def get_redis_history (c : RedisModel) (session_id : String)
    (limit : Option Nat) : Except String (List ConversationEntry) := do
  let data ← redis_get c ("conversation:" ++ session_id)
  match data with
  | none => pure []
  | some history => pure (pyLimit limit history)

/-- Embedding of `ConversationManager._clean_old_sessions`: collect every
session whose last activity is strictly older than `ttl_seconds`, then pop
each from both maps. Subtraction is truncated, matching the Python float
comparison for the only reachable case `now ≥ last_activity`. -/
def clean_old_sessions (ttl_seconds now : Nat) (st : MemoryState) : MemoryState :=
  let expired := (st.memory_timestamps.filter (fun p => now - p.2 > ttl_seconds)).map (fun p => p.1)
  { memory_store := expired.foldl alpop st.memory_store
    memory_timestamps := expired.foldl alpop st.memory_timestamps }

/-- Embedding of `ConversationManager._add_memory_entry`: sweep expired
sessions, append the entry (`defaultdict` yields `[]` for a new session),
refresh the last-activity timestamp, then trim with `history[-max_history:]`. -/
def add_memory_entry (max_history ttl_seconds now : Nat) (st : MemoryState)
    (session_id : String) (entry : ConversationEntry) : MemoryState :=
  let st := clean_old_sessions ttl_seconds now st
  let history := ((alget st.memory_store session_id).getD []) ++ [entry]
  let history := if history.length > max_history then pySliceLast max_history history else history
  { memory_store := alset st.memory_store session_id history
    memory_timestamps := alset st.memory_timestamps session_id now }

/-- Embedding of `ConversationManager._get_memory_history`. -/
def get_memory_history (st : MemoryState) (session_id : String)
    (limit : Option Nat) : List ConversationEntry :=
  pyLimit limit ((alget st.memory_store session_id).getD [])

/-- The manager object: configuration, backend selector and both backend
states. -/
structure Manager where
  max_history : Nat
  ttl_seconds : Nat
  use_redis : Bool
  mem : MemoryState
  redis : RedisModel
deriving Repr

/-- Embedding of `ConversationManager.add_entry`: build the entry at the
current time and dispatch on the backend. The result is `Except` because
the Redis path can raise. -/
def ConversationManager.add_entry (m : Manager) (now : Nat)
    (session_id query response : String) (model : String)
    (metadata : List (String × String)) : Except String Manager :=
  let entry : ConversationEntry := ⟨now, query, response, model, metadata⟩
  if m.use_redis then do
    let r ← add_redis_entry m.max_history m.ttl_seconds m.redis session_id entry
    pure { m with redis := r }
  else
    pure { m with mem := add_memory_entry m.max_history m.ttl_seconds now m.mem session_id entry }

/-- Embedding of `ConversationManager.get_history`. -/
def ConversationManager.get_history (m : Manager) (session_id : String)
    (limit : Option Nat) : Except String (List ConversationEntry) :=
  if m.use_redis then get_redis_history m.redis session_id limit
  else pure (get_memory_history m.mem session_id limit)

/-- Rendering of `datetime.fromtimestamp(ts).strftime("%H:%M:%S")`,
modelled in UTC (the local-timezone offset of the real call is a constant
shift and no claim depends on the digits). -/
def strftimeHMS (t : Nat) : String :=
  let pad := fun (n : Nat) => if n < 10 then "0" ++ toString n else toString n
  pad (t / 3600 % 24) ++ ":" ++ pad (t / 60 % 60) ++ ":" ++ pad (t % 60)

/-- The three lines appended per entry by `get_formatted_history`: the
User line, the Assistant line with `entry.response[:200]` and a literal
`"..."` suffix, and the empty separator line. -/
def formatEntryLines (entry : ConversationEntry) : List String :=
  let timestamp := strftimeHMS entry.timestamp
  ["[" ++ timestamp ++ "] User: " ++ entry.query,
   "[" ++ timestamp ++ "] Assistant: " ++ entry.response.take 200 ++ "...",
   ""]

/-- Embedding of `ConversationManager.get_formatted_history`. -/
def ConversationManager.get_formatted_history (m : Manager) (session_id : String)
    (limit : Option Nat) : Except String String := do
  let history ← ConversationManager.get_history m session_id limit
  if history.isEmpty then
    pure ""
  else
    pure (String.intercalate "\n" (history.flatMap formatEntryLines))

/-! ## API tool wrappers (`tools/`) -/

/-- An outbound HTTP GET as issued through `requests.get`. -/
structure HttpRequest where
  url : String
  headers : List (String × String)
  params : List (String × String)
  timeout : Nat
deriving DecidableEq, Repr

/-- An HTTP response: status code, the parse of the body as JSON
(`response.json()` — `none` models a decode failure), and the raw body
text (`response.text`). -/
structure HttpResponse where
  statusCode : Nat
  jsonBody : Option Json
  text : String

/-- The exceptions `requests.get` itself can raise in the modelled paths:
`requests.exceptions.Timeout` and `requests.exceptions.ConnectionError`,
carrying their `str(e)` message. -/
inductive HttpExc where
  | timeoutExc (msg : String)
  | connExc (msg : String)

/-- The HTTP requester capability: a deterministic oracle mapping each
request to a response or a raised exception. -/
def HttpOracle : Type := HttpRequest → Except HttpExc HttpResponse

/-- Python exceptions that can cross a tool-function boundary into
`with_retry`: the two re-raised transient errors, and any other
`requests.exceptions.RequestException` with its optional attached
response. -/
inductive PyExc where
  | timeout (msg : String)
  | connError (msg : String)
  | requestExc (response : Option HttpResponse) (msg : String)

/-- The `str(e)` of a `PyExc`. -/
def PyExc.msg : PyExc → String
  | .timeout m => m
  | .connError m => m
  | .requestExc _ m => m

/-- Result of one invocation attempt of an embedded tool body: the
returned JSON (or the exception it lets escape), together with the
outbound HTTP requests it issued. -/
def ToolStep : Type := Except PyExc Json × List HttpRequest

/-- Python repr of a JSON value, used by f-string interpolation of nested
containers. Fractional floats and exotic reprs are out of model; no claim
depends on these strings. -/
def pyRepr : Json → String
  | .str s => "\x27" ++ s ++ "\x27"
  | .num n => toString n
  | .bool b => if b then "True" else "False"
  | .null => "None"
  | .arr xs => "[" ++ String.intercalate ", " (xs.attach.map (fun x => pyRepr x.1)) ++ "]"
  | .obj fs => "\x7b" ++ String.intercalate ", "
      (fs.attach.map (fun p => "\x27" ++ p.1.1 ++ "\x27: " ++ pyRepr p.1.2)) ++ "\x7d"
decreasing_by
  · have h := List.sizeOf_lt_of_mem x.2
    simp only [Json.arr.sizeOf_spec]
    omega
  · obtain ⟨⟨a, b⟩, hm⟩ := p
    show sizeOf b < sizeOf (Json.obj fs)
    have h := List.sizeOf_lt_of_mem hm
    simp only [Prod.mk.sizeOf_spec] at h
    simp only [Json.obj.sizeOf_spec]
    omega

/-- Python `str()` of a JSON value as used in f-strings. -/
def pyStr : Json → String
  | .str s => s
  | j => pyRepr j

/-- The error envelope built by the `except requests.exceptions.RequestException`
branch of `with_retry` (lines 114–133 of `api_tool_template.py`). Note the
guard `if hasattr(e, "response") and e.response:` — a `requests.Response`
is falsy for status ≥ 400, so for an attached error response the status
code and body stay `None`. -/
def requestExcDict (resp : Option HttpResponse) (excMsg : String) : Json :=
  let info : Json × Json :=
    match resp with
    | some r =>
      if r.statusCode < 400 then
        (Json.num r.statusCode,
         match r.jsonBody with
         | some j => j
         | none => Json.str r.text)
      else (Json.null, Json.null)
    | none => (Json.null, Json.null)
  Json.obj [("error", .str ("API request failed: " ++ excMsg)),
            ("status", .str "error"),
            ("status_code", info.1),
            ("response", info.2)]

/-- The envelope returned by `with_retry` when the retry loop exhausts all
its iterations (lines 136–142). -/
def retryExhaustedDict (max_retries : Nat) (excMsg : String) : Json :=
  Json.obj [("error", .str ("Failed after " ++ toString max_retries ++ " retries: " ++ excMsg)),
            ("status", .str "error"),
            ("details", .str "Request timed out repeatedly")]

/-- The loop of `with_retry`: `while retries < max_retries` with `retries`
incremented on `Timeout`/`ConnectionError`, an immediate structured return
on any other `RequestException`, and — when the loop was never entered
(`max_retries = 0`, so `last_error` is still `None`) — a final unguarded
call whose exceptions propagate. `fuel` is `max_retries - retries`; the
second component counts invocations of the wrapped function and the third
accumulates the HTTP requests issued. -/
def with_retry_loop (func : Nat → ToolStep) (max_retries : Nat) :
    Nat → Nat → List HttpRequest → Option PyExc →
    Except PyExc Json × Nat × List HttpRequest
  | 0, calls, reqs, lastError =>
    match lastError with
    | some e => (.ok (retryExhaustedDict max_retries e.msg), calls, reqs)
    | none =>
      match func calls with
      | (r, rs) => (r, calls + 1, reqs ++ rs)
  | fuel + 1, calls, reqs, _ =>
    match func calls with
    | (.ok v, rs) => (.ok v, calls + 1, reqs ++ rs)
    | (.error (.timeout m), rs) =>
      with_retry_loop func max_retries fuel (calls + 1) (reqs ++ rs) (some (.timeout m))
    | (.error (.connError m), rs) =>
      with_retry_loop func max_retries fuel (calls + 1) (reqs ++ rs) (some (.connError m))
    | (.error (.requestExc r m), rs) => (.ok (requestExcDict r m), calls + 1, reqs ++ rs)

/-- Embedding of the `with_retry(max_retries)` decorator applied to a tool
body. `func` is indexed by the attempt number so successive attempts may
behave differently. Returns the final outcome, the number of times the
wrapped function was invoked, and all HTTP requests issued across
attempts. -/
def with_retry (func : Nat → ToolStep) (max_retries : Nat) :
    Except PyExc Json × Nat × List HttpRequest :=
  with_retry_loop func max_retries max_retries 0 [] none

/-- String form of `create_api_key_error(api_name, ...)` as raised by
`validate_api_key` and stringified by the caller. The `- Source:` line is
runtime stack introspection and is modelled as a fixed placeholder. -/
def apiKeyErrorStr (api_name : String) (shortKey : Bool) : String :=
  "ERROR-AUTH001: " ++ api_name.toUpper ++ " API key error\n" ++
  "- Problem: Missing or invalid " ++ api_name ++ " API key\n" ++
  "- Source: tools/errors.py:create_api_key_error\n" ++
  "- Solution: Check your .env file for a valid " ++ api_name.toUpper ++ "_API_KEY" ++
  (if shortKey then "\n- Details: hint=API key appears to be too short" else "")

/-- Embedding of `validate_api_key`: `some msg` is the stringified
`AgentExecutionError` it raises, `none` means validation passed. -/
def validate_api_key (api_key api_name : String) : Option String :=
  if api_key = "" then some (apiKeyErrorStr api_name false)
  else if api_key.length < 10 then some (apiKeyErrorStr api_name true)
  else none

/-- The `"\n".join(f"{k}: {v}" ...)` display synthesized by
`format_response` for dict data without a `display` key. -/
def displayLines (fs : List (String × Json)) : String :=
  String.intercalate "\n"
    ((fs.filter (fun p => !(p.1 == "raw_data"))).map (fun p => p.1 ++ ": " ++ pyStr p.2))

/-- Embedding of `format_response(data)` (with `include_raw=False`, the
only call mode in the repo): dict data carrying an `error` key passes
through unchanged; otherwise a `status: success` envelope is built, with a
synthesized `display` only when the data itself has none. -/
def format_response (data : Json) : Json :=
  match data with
  | .obj fields =>
    if fields.any (fun p => p.1 == "error") then data
    else
      let base := [("status", Json.str "success"), ("data", Json.obj fields)]
      if fields.any (fun p => p.1 == "display") then Json.obj base
      else if fields.length > 0 then
        Json.obj (base ++ [("display", Json.str (displayLines fields))])
      else Json.obj (base ++ [("display", Json.str "No data returned")])
  | .arr xs =>
    Json.obj [("status", .str "success"), ("data", Json.arr xs),
              ("display", .str (if xs.length > 0 then
                "Retrieved " ++ toString xs.length ++ " items" else "No items returned"))]
  | other =>
    Json.obj [("status", .str "success"), ("data", other), ("display", .str (pyStr other))]

/-- Stringification of the `requests.exceptions.HTTPError` raised by
`response.raise_for_status()`. The real library also interpolates the
reason phrase, which the model omits; no claim inspects this text. -/
def raiseForStatusStr (statusCode : Nat) (url : String) : String :=
  if statusCode < 500 then toString statusCode ++ " Client Error for url: " ++ url
  else toString statusCode ++ " Server Error for url: " ++ url

/-- The `str(e)` of the exceptions the HTTP oracle raises. -/
def HttpExc.msg : HttpExc → String
  | .timeoutExc m => m
  | .connExc m => m

/-- The error-message extraction in the HTTPError handler of
`weather_api` (lines 108–124): prefer `error_data["error"]["message"]`
from a JSON body, fall back to `str(e)` when the dict lacks `message`, and
to `response.text or str(e)` when the body is not a JSON dict (the bare
`except:` also swallows the attribute error of a non-dict `error`
value). -/
def weatherHttpErrMsg (r : HttpResponse) (eStr : String) : String :=
  match r.jsonBody with
  | some (.obj fs) =>
    match alget fs "error" with
    | some (.obj efs) =>
      match alget efs "message" with
      | some m => pyStr m
      | none => eStr
    | some _ => if r.text = "" then eStr else r.text
    | none => eStr
  | _ => if r.text = "" then eStr else r.text

/-- Lookup of a key in the weather payload, standing for a Python
`dict[key]` access: `error` carries the `str(KeyError)` (the repr of the
missing key) that the `except Exception` handler will stringify. Indexing
a non-dict raises a TypeError in Python; it is modelled by the same error
path. -/
def jget (j : Json) (k : String) : Except String Json :=
  match j.getField k with
  | some v => .ok v
  | none => .error ("\x27" ++ k ++ "\x27")

/-- The display block built by `weather_api` from `data["location"]` and
`data["current"]` (f-string over nine fields, `region` read with
`.get("region", "")`), assigned into `data["display"]`. An error is the
stringified exception of a missing field. -/
def buildWeatherDisplay (data : Json) : Except String Json :=
  match data with
  | .obj fields => do
    let location_info ← jget data "location"
    let current ← jget data "current"
    let name ← jget location_info "name"
    let region := match location_info.getField "region" with
      | some v => pyStr v
      | none => ""
    let country ← jget location_info "country"
    let temp_c ← jget current "temp_c"
    let temp_f ← jget current "temp_f"
    let condition ← jget current "condition"
    let cond_text ← jget condition "text"
    let wind_kph ← jget current "wind_kph"
    let wind_dir ← jget current "wind_dir"
    let humidity ← jget current "humidity"
    let feelslike_c ← jget current "feelslike_c"
    let feelslike_f ← jget current "feelslike_f"
    let display :=
      "Weather for " ++ pyStr name ++ ", " ++ region ++ ", " ++ pyStr country ++ ":\n" ++
      "- Temperature: " ++ pyStr temp_c ++ "°C / " ++ pyStr temp_f ++ "°F\n" ++
      "- Conditions: " ++ pyStr cond_text ++ "\n" ++
      "- Wind: " ++ pyStr wind_kph ++ " kph (" ++ pyStr wind_dir ++ ")\n" ++
      "- Humidity: " ++ pyStr humidity ++ "%\n" ++
      "- Feels like: " ++ pyStr feelslike_c ++ "°C / " ++ pyStr feelslike_f ++ "°F"
    pure (Json.obj (alset fields "display" (Json.str display)))
  | _ => .error "TypeError"

/-- Python `location.strip()` on the whitespace default, written with
structural recursion so that it evaluates inside the kernel. The guard
`if not location or len(location.strip()) == 0` is equivalent to the
stripped string being empty. -/
def pyStrip (s : String) : String :=
  String.mk (((s.data.dropWhile Char.isWhitespace).reverse.dropWhile Char.isWhitespace).reverse)

/-- The fixed request issued by `weather_api` for a given key and
location. -/
def weatherRequest (api_key location : String) : HttpRequest :=
  { url := "https://api.weatherapi.com/v1/current.json"
    headers := []
    params := [("key", api_key), ("q", location)]
    timeout := 10 }

/-- Embedding of the body of `weather_api(location)` (the function under
the `with_retry` decorator). `api_key` is `os.environ.get("WEATHER_API_KEY", "")`.
Timeout and connection errors are re-raised for the decorator; every other
outcome is returned as a dict. -/
def weather_api (api_key : String) (http : HttpOracle) (location : String) : ToolStep :=
  match validate_api_key api_key "weather" with
  | some errStr => (.ok (Json.obj [("error", .str errStr), ("status", .str "error")]), [])
  | none =>
    if pyStrip location = "" then
      (.ok (Json.obj [("error", .str "Location parameter cannot be empty"),
                      ("status", .str "error"),
                      ("hint", .str "Please provide a valid location like \x27New York\x27, \x27London\x27, etc.")]), [])
    else
      let req := weatherRequest api_key location
      match http req with
      | .error (.timeoutExc m) => (.error (.timeout m), [req])
      | .error (.connExc m) => (.error (.connError m), [req])
      | .ok response =>
        if 400 ≤ response.statusCode ∧ response.statusCode < 600 then
          (.ok (Json.obj [("error", .str ("Weather API error: " ++
                    weatherHttpErrMsg response (raiseForStatusStr response.statusCode req.url))),
                  ("status", .str "error"),
                  ("status_code", .num response.statusCode)]), [req])
        else
          match response.jsonBody with
          | none =>
            (.ok (Json.obj [("error", .str "Invalid JSON response"),
                    ("status", .str "error"),
                    ("response", .str response.text)]), [req])
          | some data =>
            if (data.getField "location").isNone ∨ (data.getField "current").isNone then
              (.ok (Json.obj [("error", .str "Invalid response format"),
                      ("status", .str "error"),
                      ("hint", .str "API response is missing required fields")]), [req])
            else
              match buildWeatherDisplay data with
              | .error excStr =>
                (.ok (Json.obj [("error", .str ("Unexpected error: " ++ excStr)),
                        ("status", .str "error")]), [req])
              | .ok dataWithDisplay => (.ok (format_response dataWithDisplay), [req])

/-- Static configuration captured by the closure returned by
`create_api_tool`: `api_key` is `None` when the configured environment
variable was absent (`os.getenv`) and is never consulted again. -/
structure ApiToolCfg where
  name : String
  endpoint : String
  api_key : Option String
  auth_type : String
deriving DecidableEq, Repr

/-- Python `auth_type.lower()`, written with structural recursion so
that it evaluates inside the kernel. -/
def pyLower (s : String) : String := String.mk (s.data.map Char.toLower)

/-- Substring test, standing for the Python `in` operator on strings. -/
def containsSubstr (s sub : String) : Bool :=
  (s.splitOn sub).length != 1

/-- The `urllib.parse.urlparse(endpoint).netloc` of a URL: the text
between `://` and the next `/` (empty when the URL has no scheme, matching
urlparse). -/
def urlNetloc (u : String) : String :=
  match u.splitOn "://" with
  | _ :: rest :: _ => ((rest.splitOn "/").headD "")
  | _ => ""

/-- Embedding of the closure `api_tool_function(**kwargs)` produced by
`create_api_tool` in `mcp_api_loader.py`. Note there is no `with_retry`
here, no credential check before the request, and `Timeout` is itself a
`RequestException`, so every request failure lands in the
`status: "failed"` branch after a single attempt. A 2xx JSON body is
returned as-is. -/
def api_tool_function (cfg : ApiToolCfg) (http : HttpOracle)
    (kwargs : List (String × String)) : Json × List HttpRequest :=
  let query_params := kwargs
  let hp : List (String × String) × List (String × String) :=
    match cfg.api_key with
    | some api_key =>
      if api_key ≠ "" then
        (if pyLower cfg.auth_type = "bearer" then
          ([("Authorization", "Bearer " ++ api_key)], query_params)
        else if pyLower cfg.auth_type = "api-key" then
          ([("X-API-Key", api_key)], query_params)
        else if pyLower cfg.auth_type = "query-key" then
          ([], alset query_params "key" api_key)
        else if pyLower cfg.auth_type = "query-param-apikey" then
          ([], alset query_params "apikey" api_key)
        else if pyLower cfg.auth_type = "query-param-api_key" then
          ([], alset query_params "api_key" api_key)
        else if pyLower cfg.auth_type = "x-rapidapi-key" then
          (if containsSubstr cfg.endpoint "rapidapi.com" then
            [("X-RapidAPI-Key", api_key), ("X-RapidAPI-Host", urlNetloc cfg.endpoint)]
          else [("X-RapidAPI-Key", api_key)], query_params)
        else
          ([("Authorization", cfg.auth_type ++ " " ++ api_key)], query_params))
      else ([], query_params)
    | none => ([], query_params)
  let req : HttpRequest := { url := cfg.endpoint, headers := hp.1, params := hp.2, timeout := 30 }
  match http req with
  | .error e =>
    (Json.obj [("error", .str e.msg), ("status", .str "failed")], [req])
  | .ok response =>
    if 400 ≤ response.statusCode ∧ response.statusCode < 600 then
      (Json.obj [("error", .str (raiseForStatusStr response.statusCode cfg.endpoint)),
                 ("status", .str "failed")], [req])
    else
      match response.jsonBody with
      | some j => (j, [req])
      | none => (Json.obj [("response", .str response.text)], [req])

/-! ## Concrete inputs and scenario drivers used by the theorems -/

/-- The empty in-memory store a fresh manager starts from. -/
def emptyMemoryState : MemoryState := ⟨[], []⟩

/-- A fault-free Redis client model with an empty key space. -/
def freshRedis : RedisModel := ⟨[], none, none⟩

/-- A Redis client model whose `get` raises a connection error. -/
def faultyRedis : RedisModel := ⟨[], some "ConnectionError: connection refused", none⟩

/-- A sample conversation entry. -/
def sampleEntry : ConversationEntry := ⟨1000, "Q1", "A1", "gpt-4.1", []⟩

/-- A second sample conversation entry. -/
def sampleEntry2 : ConversationEntry := ⟨1001, "Q2", "A2", "gpt-4.1", []⟩

/-- A manager on the in-memory backend with one stored exchange. -/
def sampleManager : Manager :=
  ⟨10, 86400, false, ⟨[("s1", [sampleEntry])], [("s1", 1000)]⟩, freshRedis⟩

/-- A manager on the in-memory backend with an empty store. -/
def emptyManager : Manager := ⟨10, 86400, false, emptyMemoryState, freshRedis⟩

/-- A tool body all of whose attempts raise `requests.exceptions.Timeout`. -/
def timeoutStep : Nat → ToolStep :=
  fun _ => (.error (.timeout "HTTPSConnectionPool: read timed out"), [])

/-- An HTTP oracle that always answers 404 with a non-JSON body. -/
def http404 : HttpOracle := fun _ => .ok ⟨404, none, "Not Found"⟩

/-- An HTTP oracle that always answers 401. -/
def http401 : HttpOracle := fun _ => .ok ⟨401, none, "Unauthorized"⟩

/-- An HTTP oracle that always answers 200 with a JSON object body that
has no `status` field. -/
def http200obj : HttpOracle :=
  fun _ => .ok ⟨200, some (Json.obj [("articles", Json.arr [])]), ""⟩

/-- An HTTP oracle that always times out. -/
def httpTimeout : HttpOracle := fun _ => .error (.timeoutExc "read timed out")

/-- A tool configuration whose credential environment variable was absent
(`os.getenv` returned `None`). -/
def cfgNoKey : ApiToolCfg := ⟨"NewsAPI", "https://newsapi.org/v2/everything", none, "Bearer"⟩

/-- A bearer-token tool configuration with a credential present. -/
def cfgBearer : ApiToolCfg := ⟨"NewsAPI", "https://newsapi.org/v2/everything", some "k1234567890", "Bearer"⟩

/-- A query-key tool configuration with a credential present. -/
def cfgQueryKey : ApiToolCfg :=
  ⟨"WeatherAPI", "https://api.weatherapi.com/v1/current.json", some "testkey123", "query-key"⟩

/-- Iterated `add_entry` calls on the in-memory backend: one call per
`(timestamp, entry)` pair, in order. -/
def run_adds (max_history ttl_seconds : Nat) (session_id : String) :
    MemoryState → List (Nat × ConversationEntry) → MemoryState
  | st, [] => st
  | st, (t, e) :: rest =>
    run_adds max_history ttl_seconds session_id
      (add_memory_entry max_history ttl_seconds t st session_id e) rest

/-- Iterated `add_entry` calls on the Redis backend, stopping at the first
raised exception. -/
def run_redis_adds (max_history ttl_seconds : Nat) (session_id : String) :
    RedisModel → List ConversationEntry → Except String RedisModel
  | c, [] => .ok c
  | c, e :: rest =>
    match add_redis_entry max_history ttl_seconds c session_id e with
    | .ok c2 => run_redis_adds max_history ttl_seconds session_id c2 rest
    | .error err => .error err

/-- Every gap between consecutive timestamps is at most `ttl`: under this
condition the write-time sweep never expires the session being written. -/
def gapsOK (ttl : Nat) : List Nat → Bool
  | [] => true
  | [_] => true
  | a :: b :: rest => (decide (b - a ≤ ttl)) && gapsOK ttl (b :: rest)

/-- The append-then-trim step shared verbatim by `_add_memory_entry` and
`_add_redis_entry`. -/
def trimStep (max_history : Nat) (history : List ConversationEntry)
    (entry : ConversationEntry) : List ConversationEntry :=
  let h2 := history ++ [entry]
  if h2.length > max_history then pySliceLast max_history h2 else h2

/-- An envelope is status-tagged when its `status` field is the string
`success` or the string `error`. -/
def statusOK (j : Json) : Prop :=
  j.getField "status" = some (.str "success") ∨ j.getField "status" = some (.str "error")

/-! ## Helper lemmas -/

theorem exc_bind_ok {ε α β : Type} (a : α) (f : α → Except ε β) :
    (Except.ok a >>= f) = f a := rfl

theorem exc_bind_error {ε α β : Type} (e : ε) (f : α → Except ε β) :
    ((Except.error e : Except ε α) >>= f) = Except.error e := rfl

theorem alget_cons_self {α : Type} (k : String) (v : α) (m : List (String × α)) :
    alget ((k, v) :: m) k = some v := by
  simp [alget, List.find?_cons_of_pos]


theorem find_of_alset_hit {α : Type} (k : String) (v : α) :
    ∀ (m : List (String × α)), m.any (fun p => p.1 == k) = true →
      (m.map (fun p => if p.1 == k then (k, v) else p)).find? (fun p => p.1 == k)
        = some (k, v) := by
  intro m
  induction m with
  | nil => intro h; simp at h
  | cons a t ih =>
    intro h
    cases hb : (a.1 == k) with
    | true =>
      simp only [List.map_cons, hb, if_true]
      exact List.find?_cons_of_pos _ (by simp)
    | false =>
      have h2 : t.any (fun p => p.1 == k) = true := by
        rw [List.any_cons, hb] at h
        simpa using h
      simp only [List.map_cons, hb, if_false]
      rw [List.find?_cons_of_neg _ (by simp [hb])]
      exact ih h2

theorem find_of_alset_miss {α : Type} (k : String) (v : α) :
    ∀ (m : List (String × α)), m.any (fun p => p.1 == k) = false →
      (m ++ [(k, v)]).find? (fun p => p.1 == k) = some (k, v) := by
  intro m
  induction m with
  | nil => simp [List.find?_cons_of_pos]
  | cons a t ih =>
    intro h
    rw [List.any_cons] at h
    have hb : (a.1 == k) = false := by
      cases hx : (a.1 == k) <;> simp [hx] at h ⊢
    have h2 : t.any (fun p => p.1 == k) = false := by
      cases hx : t.any (fun p => p.1 == k) <;> simp [hx, hb] at h ⊢
    rw [List.cons_append, List.find?_cons_of_neg _ (by simp [hb])]
    exact ih h2

theorem alget_alset_self {α : Type} (m : List (String × α)) (k : String) (v : α) :
    alget (alset m k v) k = some v := by
  unfold alget alset
  cases h : m.any (fun p => p.1 == k) with
  | true => rw [if_pos rfl, find_of_alset_hit k v m h]; rfl
  | false => rw [if_neg (by simp), find_of_alset_miss k v m h]; rfl

theorem alget_alset_ne {α : Type} (m : List (String × α)) (k k2 : String) (v : α)
    (hne : k2 ≠ k) : alget (alset m k v) k2 = alget m k2 := by
  unfold alget alset
  split
  next hany =>
    clear hany
    congr 1
    induction m with
    | nil => rfl
    | cons a t ih =>
      cases hb : (a.1 == k) with
      | true =>
        have ha : a.1 = k := by simpa using hb
        simp only [List.map_cons]
        rw [if_pos hb, List.find?_cons_of_neg _ (by simp [Ne.symm hne]),
            List.find?_cons_of_neg _ (by simp [ha, Ne.symm hne])]
        exact ih
      | false =>
        simp only [List.map_cons]
        rw [if_neg (by simp [hb])]
        cases hc : (a.1 == k2) with
        | true =>
          rw [List.find?_cons_of_pos _ (by simp [hc]), List.find?_cons_of_pos _ (by simp [hc])]
        | false =>
          rw [List.find?_cons_of_neg _ (by simp [hc]), List.find?_cons_of_neg _ (by simp [hc])]
          exact ih
  next hany =>
    clear hany
    congr 1
    induction m with
    | nil =>
      rw [List.nil_append, List.find?_cons_of_neg _ (by simp [Ne.symm hne])]
    | cons a t ih =>
      cases hc : (a.1 == k2) with
      | true =>
        rw [List.cons_append, List.find?_cons_of_pos _ (by simp [hc]),
            List.find?_cons_of_pos _ (by simp [hc])]
      | false =>
        rw [List.cons_append, List.find?_cons_of_neg _ (by simp [hc]),
            List.find?_cons_of_neg _ (by simp [hc])]
        exact ih

theorem alget_alpop_self {α : Type} (m : List (String × α)) (k : String) :
    alget (alpop m k) k = none := by
  unfold alget alpop
  induction m with
  | nil => rfl
  | cons a t ih =>
    cases hb : (a.1 == k) with
    | true =>
      simp only [List.filter_cons, hb]
      rw [show (!true) = false from rfl, if_neg (by simp)]
      exact ih
    | false =>
      simp only [List.filter_cons, hb]
      rw [show (!false) = true from rfl, if_pos rfl,
          List.find?_cons_of_neg _ (by simp [hb])]
      exact ih

theorem alget_alpop_ne {α : Type} (m : List (String × α)) (k k2 : String)
    (hne : k2 ≠ k) : alget (alpop m k) k2 = alget m k2 := by
  unfold alget alpop
  induction m with
  | nil => rfl
  | cons a t ih =>
    cases hb : (a.1 == k) with
    | true =>
      have ha : a.1 = k := by simpa using hb
      simp only [List.filter_cons, hb]
      rw [show (!true) = false from rfl, if_neg (by simp),
          List.find?_cons_of_neg _ (by simp [ha, Ne.symm hne])]
      exact ih
    | false =>
      simp only [List.filter_cons, hb]
      rw [show (!false) = true from rfl, if_pos rfl]
      cases hc : (a.1 == k2) with
      | true =>
        rw [List.find?_cons_of_pos _ (by simp [hc]), List.find?_cons_of_pos _ (by simp [hc])]
      | false =>
        rw [List.find?_cons_of_neg _ (by simp [hc]), List.find?_cons_of_neg _ (by simp [hc])]
        exact ih

theorem alget_foldl_alpop_of_ne {α : Type} (k : String) :
    ∀ (ks : List String) (m : List (String × α)), (∀ x ∈ ks, x ≠ k) →
      alget (ks.foldl alpop m) k = alget m k := by
  intro ks
  induction ks with
  | nil => intro m _; rfl
  | cons a t ih =>
    intro m h
    rw [List.foldl_cons, ih (alpop m a) (fun x hx => h x (List.mem_cons_of_mem a hx)),
        alget_alpop_ne m a k (fun hk => h a (List.mem_cons_self a t) hk.symm)]

theorem alget_foldl_alpop_of_mem {α : Type} (k : String) :
    ∀ (ks : List String) (m : List (String × α)), k ∈ ks →
      alget (ks.foldl alpop m) k = none := by
  have stays : ∀ (ks : List String) (m : List (String × α)), alget m k = none →
      alget (ks.foldl alpop m) k = none := by
    intro ks
    induction ks with
    | nil => intro m h; exact h
    | cons a t ih =>
      intro m h
      rw [List.foldl_cons]
      refine ih (alpop m a) ?_
      by_cases ha : k = a
      · subst ha; exact alget_alpop_self m k
      · rw [alget_alpop_ne m a k ha]; exact h
  intro ks
  induction ks with
  | nil => intro m h; simp at h
  | cons a t ih =>
    intro m h
    rw [List.foldl_cons]
    by_cases ha : k = a
    · subst ha
      exact stays t (alpop m k) (alget_alpop_self m k)
    · exact ih (alpop m a) (by rcases List.mem_cons.mp h with h1 | h1; exact absurd h1 ha; exact h1)

theorem alget_mem_unique {α : Type} (k : String) (t0 : α) :
    ∀ (m : List (String × α)), (m.map Prod.fst).Nodup → alget m k = some t0 →
      ∀ q ∈ m, q.1 = k → q.2 = t0 := by
  intro m
  induction m with
  | nil => intro _ _ q hq; simp at hq
  | cons a t ih =>
    intro hnd hget q hq hk
    rw [List.map_cons, List.nodup_cons] at hnd
    unfold alget at hget
    rcases List.mem_cons.mp hq with h1 | h1
    · subst h1
      rw [List.find?_cons_of_pos _ (by simp [hk])] at hget
      simpa using hget
    · cases hb : (a.1 == k) with
      | true =>
        exfalso
        have : a.1 ∈ t.map Prod.fst := by
          rw [show a.1 = k from by simpa using hb]
          exact List.mem_map.mpr ⟨q, h1, hk⟩
        exact hnd.1 this
      | false =>
        rw [List.find?_cons_of_neg _ (by simp [hb])] at hget
        exact ih hnd.2 hget q h1 hk

theorem trimStep_lastN (m : Nat) (hm : 1 ≤ m) (es : List ConversationEntry)
    (e : ConversationEntry) :
    trimStep m (es.drop (es.length - m)) e = (es ++ [e]).drop ((es ++ [e]).length - m) := by
  unfold trimStep pySliceLast
  by_cases hL : es.length < m
  · have h0 : es.length - m = 0 := by omega
    have h1 : (es ++ [e]).length - m = 0 := by simp; omega
    rw [h0, List.drop_zero, h1, List.drop_zero]
    rw [if_neg (by simp; omega)]
  · have hLm : m ≤ es.length := by omega
    have hdlen : (es.drop (es.length - m)).length = m := by
      rw [List.length_drop]; omega
    have hcond : (es.drop (es.length - m) ++ [e]).length > m := by
      simp [hdlen]
    rw [if_pos hcond, if_neg (by omega)]
    have hidx : (es.drop (es.length - m) ++ [e]).length - m = 1 := by
      simp [hdlen]
    rw [hidx]
    rw [List.drop_append_of_le_length (by omega),
        List.drop_drop, List.drop_append_of_le_length (by simp; omega)]
    have harith : es.length - m + 1 = (es ++ [e]).length - m := by simp; omega
    rw [harith]

theorem foldl_trimStep_lastN (m : Nat) (hm : 1 ≤ m) :
    ∀ (es : List ConversationEntry),
      es.foldl (trimStep m) [] = es.drop (es.length - m) := by
  intro es
  induction es using List.reverseRecOn with
  | nil => simp
  | append_singleton xs x ih =>
    rw [List.foldl_append, List.foldl_cons, List.foldl_nil, ih]
    exact trimStep_lastN m hm xs x

theorem add_memory_entry_empty (m ttl t : Nat) (sid : String) (e : ConversationEntry)
    (hm : 1 ≤ m) :
    add_memory_entry m ttl t ⟨[], []⟩ sid e = ⟨[(sid, [e])], [(sid, t)]⟩ := by
  unfold add_memory_entry clean_old_sessions
  simp [alget, alset, show ¬(1 > m) from by omega]

theorem add_memory_entry_singleton (m ttl t t0 : Nat) (sid : String)
    (hist : List ConversationEntry) (e : ConversationEntry) (hgap : t - t0 ≤ ttl) :
    add_memory_entry m ttl t ⟨[(sid, hist)], [(sid, t0)]⟩ sid e =
      ⟨[(sid, trimStep m hist e)], [(sid, t)]⟩ := by
  unfold add_memory_entry clean_old_sessions trimStep
  simp [alget, alset, List.filter_cons, show ¬(t - t0 > ttl) from by omega,
        List.find?_cons_of_pos]

theorem run_adds_singleton (m ttl : Nat) (sid : String) :
    ∀ (adds : List (Nat × ConversationEntry)) (hist : List ConversationEntry) (t0 : Nat),
      gapsOK ttl (t0 :: adds.map Prod.fst) = true →
      run_adds m ttl sid ⟨[(sid, hist)], [(sid, t0)]⟩ adds =
        ⟨[(sid, adds.foldl (fun h p => trimStep m h p.2) hist)],
         [(sid, (adds.map Prod.fst).getLastD t0)]⟩ := by
  intro adds
  induction adds with
  | nil => intro hist t0 _; rfl
  | cons a rest ih =>
    intro hist t0 hgap
    obtain ⟨t, e⟩ := a
    rw [List.map_cons] at hgap
    have hgap2 := hgap
    simp only [gapsOK, Bool.and_eq_true, decide_eq_true_eq] at hgap2
    rw [run_adds, add_memory_entry_singleton m ttl t t0 sid hist e hgap2.1,
        ih (trimStep m hist e) t hgap2.2]
    rw [List.foldl_cons, List.map_cons, List.getLastD_cons]

theorem add_redis_entry_fresh (m ttl : Nat) (sid : String) (e : ConversationEntry) :
    add_redis_entry m ttl ⟨[], none, none⟩ sid e =
      .ok ⟨[("conversation:" ++ sid, (ttl, trimStep m [] e))], none, none⟩ := by
  unfold add_redis_entry redis_get redis_setex trimStep
  rfl

theorem add_redis_entry_singleton (m ttl ttl0 : Nat) (sid : String)
    (hist : List ConversationEntry) (e : ConversationEntry) :
    add_redis_entry m ttl ⟨[("conversation:" ++ sid, (ttl0, hist))], none, none⟩ sid e =
      .ok ⟨[("conversation:" ++ sid, (ttl, trimStep m hist e))], none, none⟩ := by
  unfold add_redis_entry redis_get redis_setex trimStep
  simp [alget, alset, List.find?_cons_of_pos]
  rfl

theorem run_redis_adds_singleton (m ttl : Nat) (sid : String) :
    ∀ (es : List ConversationEntry) (hist : List ConversationEntry),
      run_redis_adds m ttl sid ⟨[("conversation:" ++ sid, (ttl, hist))], none, none⟩ es =
        .ok ⟨[("conversation:" ++ sid, (ttl, es.foldl (trimStep m) hist))], none, none⟩ := by
  intro es
  induction es with
  | nil => intro hist; rfl
  | cons e rest ih =>
    intro hist
    rw [run_redis_adds, add_redis_entry_singleton m ttl ttl sid hist e]
    dsimp only
    rw [ih (trimStep m hist e), List.foldl_cons]

/-- C1 counterexample: with `max_history = 0`, one `add_entry` call (so
N = 1 > `max_history`) leaves one stored entry, because the trim
`history[-0:]` is the whole list in Python; `get_history` does not return
`max_history = 0` entries. -/
theorem max_history_zero_counterexample :
    get_memory_history (run_adds 0 86400 "s1" ⟨[], []⟩ [(1000, sampleEntry)]) "s1" none
      = [sampleEntry] ∧
    (get_memory_history (run_adds 0 86400 "s1" ⟨[], []⟩ [(1000, sampleEntry)]) "s1" none).length
      ≠ 0 := by
  constructor
  · rfl
  · intro h
    rw [show get_memory_history (run_adds 0 86400 "s1" ⟨[], []⟩ [(1000, sampleEntry)]) "s1" none
          = [sampleEntry] from rfl] at h
    simp at h

/-- C1 (amended): for `max_history ≥ 1`, and provided consecutive
`add_entry` calls on the session are never more than the TTL apart (so the
write-time sweep does not expire the session mid-sequence), after N > `max_history`
calls on a fresh session `get_history` returns exactly `max_history`
entries on both backends, namely the `max_history` most recently added
ones. -/
theorem max_history_eviction_amended (max_history ttl_seconds : Nat) (session_id : String)
    (adds : List (Nat × ConversationEntry))
    (hm : 1 ≤ max_history)
    (hgap : gapsOK ttl_seconds (adds.map Prod.fst) = true)
    (hn : adds.length > max_history) :
    get_memory_history (run_adds max_history ttl_seconds session_id ⟨[], []⟩ adds) session_id none
      = (adds.map Prod.snd).drop (adds.length - max_history) ∧
    ((adds.map Prod.snd).drop (adds.length - max_history)).length = max_history ∧
    (run_redis_adds max_history ttl_seconds session_id ⟨[], none, none⟩ (adds.map Prod.snd) >>=
        fun c => get_redis_history c session_id none)
      = .ok ((adds.map Prod.snd).drop (adds.length - max_history)) := by
  cases adds with
  | nil => simp at hn
  | cons a rest =>
    obtain ⟨t1, e1⟩ := a
    have hlen : ((t1, e1) :: rest).length = rest.length + 1 := by simp
    have hmapfst : (((t1, e1) :: rest).map Prod.fst) = t1 :: rest.map Prod.fst := by simp
    have hgap2 : gapsOK ttl_seconds (t1 :: rest.map Prod.fst) = true := by
      rw [hmapfst] at hgap; exact hgap
    have hfold : rest.foldl (fun h p => trimStep max_history h p.2) [e1]
        = (e1 :: rest.map Prod.snd).drop ((e1 :: rest.map Prod.snd).length - max_history) := by
      have h1 : rest.foldl (fun h p => trimStep max_history h p.2) [e1]
          = (rest.map Prod.snd).foldl (trimStep max_history) [e1] :=
        (List.foldl_map Prod.snd (trimStep max_history) rest [e1]).symm
      have h2 : trimStep max_history [] e1 = [e1] := by
        show (if (([] : List ConversationEntry) ++ [e1]).length > max_history
              then pySliceLast max_history (([] : List ConversationEntry) ++ [e1])
              else ([] : List ConversationEntry) ++ [e1]) = [e1]
        rw [if_neg (by simp only [List.nil_append, List.length_cons, List.length_nil]; omega)]
        simp
      rw [h1, ← h2, ← List.foldl_cons, foldl_trimStep_lastN max_history hm]
    refine ⟨?_, ?_, ?_⟩
    · rw [run_adds, add_memory_entry_empty max_history ttl_seconds t1 session_id e1 hm,
          run_adds_singleton max_history ttl_seconds session_id rest [e1] t1 hgap2]
      unfold get_memory_history pyLimit
      rw [alget_cons_self]
      simp only [Option.getD_some]
      rw [hfold]
      simp
    · rw [List.length_drop]
      simp at hn ⊢
      omega
    · rw [List.map_cons, run_redis_adds, add_redis_entry_fresh max_history ttl_seconds session_id e1]
      dsimp only
      rw [run_redis_adds_singleton max_history ttl_seconds session_id (rest.map Prod.snd)
            (trimStep max_history [] e1), exc_bind_ok]
      unfold get_redis_history redis_get
      dsimp only
      rw [alget_cons_self]
      show Except.ok (pyLimit none _) = _
      unfold pyLimit
      rw [← List.foldl_cons, foldl_trimStep_lastN max_history hm]
      simp

/-- Witness for the amended C1 theorem at `max_history = 1` with two adds. -/
theorem max_history_eviction_witness :
    get_memory_history (run_adds 1 10 "s1" ⟨[], []⟩ [(0, sampleEntry), (1, sampleEntry2)]) "s1" none
      = ([(0, sampleEntry), (1, sampleEntry2)].map Prod.snd).drop
          ([(0, sampleEntry), (1, sampleEntry2)].length - 1) ∧
    (([(0, sampleEntry), (1, sampleEntry2)].map Prod.snd).drop
          ([(0, sampleEntry), (1, sampleEntry2)].length - 1)).length = 1 ∧
    (run_redis_adds 1 10 "s1" ⟨[], none, none⟩ ([(0, sampleEntry), (1, sampleEntry2)].map Prod.snd) >>=
        fun c => get_redis_history c "s1" none)
      = .ok (([(0, sampleEntry), (1, sampleEntry2)].map Prod.snd).drop
          ([(0, sampleEntry), (1, sampleEntry2)].length - 1)) :=
  max_history_eviction_amended 1 10 "s1" [(0, sampleEntry), (1, sampleEntry2)]
    (by decide) (by decide) (by decide)

/-- C10: on both backends, `get_history` with `limit = 0` returns the
entire stored history, exactly as with no limit, because `if limit:` is
false for `0`. -/
theorem limit_zero_full_history (st : MemoryState) (c : RedisModel) (session_id : String) :
    get_memory_history st session_id (some 0) = get_memory_history st session_id none ∧
    get_redis_history c session_id (some 0) = get_redis_history c session_id none := by
  constructor
  · rfl
  · unfold get_redis_history
    cases hf : redis_get c ("conversation:" ++ session_id) with
    | error e => rw [exc_bind_error, exc_bind_error]
    | ok data =>
      rw [exc_bind_ok, exc_bind_ok]
      cases data with
      | none => rfl
      | some history => rfl

/-- C2 (code bug): with the default `max_retries = 2` and a wrapped
function that raises `Timeout` on every call, `with_retry` invokes the
function exactly 2 times — `max_retries`, not `max_retries + 1` — while
still returning the `status: "error"` envelope instead of raising. The
loop `while retries < max_retries` counts the initial attempt against the
retry budget, contradicting the decorator docstring, its
`retrying {retries}/{max_retries}` log line, and its own
`Failed after {max_retries} retries` message. -/
theorem with_retry_attempts_bug :
    (with_retry timeoutStep 2).2.1 = 2 ∧
    (with_retry timeoutStep 2).1
      = .ok (retryExhaustedDict 2 "HTTPSConnectionPool: read timed out") ∧
    (retryExhaustedDict 2 "HTTPSConnectionPool: read timed out").getField "status"
      = some (.str "error") ∧
    (with_retry timeoutStep 2).2.1 ≠ 2 + 1 := by
  refine ⟨rfl, rfl, rfl, by decide⟩

/-- C3 counterexample: a Redis client whose `get` raises makes
`_add_redis_entry` raise (the write is not dropped silently) and makes
`_get_redis_history` raise (no empty-list fallback). -/
theorem redis_errors_propagate_counterexample :
    add_redis_entry 10 86400 faultyRedis "s1" sampleEntry
      = .error "ConnectionError: connection refused" ∧
    get_redis_history faultyRedis "s1" none
      = .error "ConnectionError: connection refused" ∧
    get_redis_history faultyRedis "s1" none ≠ .ok [] := by
  refine ⟨rfl, rfl, ?_⟩
  rw [show get_redis_history faultyRedis "s1" none
        = .error "ConnectionError: connection refused" from rfl]
  simp

/-- C3 (amended): on the in-memory backend `add_entry` is total, but on
the Redis backend any client exception during `add_entry` or
`get_history` propagates to the caller unchanged; there is no catch and no
empty-history fallback. Only the initial connection probe in the
constructor is guarded. -/
theorem redis_errors_propagate_amended (c : RedisModel) (msg session_id : String)
    (entry : ConversationEntry) (limit : Option Nat) (max_history ttl_seconds : Nat)
    (m : Manager) (now : Nat) (q r mo : String) (md : List (String × String))
    (h : c.getFault = some msg) (hmem : m.use_redis = false) :
    add_redis_entry max_history ttl_seconds c session_id entry = .error msg ∧
    get_redis_history c session_id limit = .error msg ∧
    ∃ m2, ConversationManager.add_entry m now session_id q r mo md = .ok m2 := by
  refine ⟨?_, ?_, ?_⟩
  · unfold add_redis_entry redis_get
    rw [h]
    rfl
  · unfold get_redis_history redis_get
    rw [h]
    rfl
  · refine ⟨{ m with mem := add_memory_entry m.max_history m.ttl_seconds now m.mem session_id ⟨now, q, r, mo, md⟩ }, ?_⟩
    unfold ConversationManager.add_entry
    rw [hmem]
    rfl

/-- Witness for the amended C3 theorem with a concrete faulty client and
a concrete in-memory manager. -/
theorem redis_errors_propagate_witness :
    add_redis_entry 10 86400 faultyRedis "s1" sampleEntry
      = .error "ConnectionError: connection refused" ∧
    get_redis_history faultyRedis "s1" none
      = .error "ConnectionError: connection refused" ∧
    ∃ m2, ConversationManager.add_entry emptyManager 1000 "s1" "Q1" "A1" "gpt-4.1" [] = .ok m2 :=
  redis_errors_propagate_amended faultyRedis "ConnectionError: connection refused" "s1"
    sampleEntry none 10 86400 emptyManager 1000 "Q1" "A1" "gpt-4.1" [] rfl rfl

/-- C9: on the in-memory backend, expired-session reclamation happens
inline on every write. Whenever `add_entry` runs at time `now`, every
other session whose last activity `t` satisfies `now - t > ttl_seconds`
is removed from both maps before the new entry is stored, and every other
session within the TTL is left untouched (there is no other reclamation;
reads are pure). -/
theorem ttl_sweep_on_write (max_history ttl_seconds now : Nat) (st : MemoryState)
    (session_id other : String) (entry : ConversationEntry) (t : Nat)
    (hne : other ≠ session_id)
    (ht : alget st.memory_timestamps other = some t)
    (hnodup : (st.memory_timestamps.map Prod.fst).Nodup) :
    (now - t > ttl_seconds →
      alget (add_memory_entry max_history ttl_seconds now st session_id entry).memory_store other
        = none ∧
      alget (add_memory_entry max_history ttl_seconds now st session_id entry).memory_timestamps other
        = none) ∧
    (now - t ≤ ttl_seconds →
      alget (add_memory_entry max_history ttl_seconds now st session_id entry).memory_store other
        = alget st.memory_store other ∧
      alget (add_memory_entry max_history ttl_seconds now st session_id entry).memory_timestamps other
        = alget st.memory_timestamps other) := by
  obtain ⟨pr, hfind, hpr2⟩ : ∃ pr, st.memory_timestamps.find? (fun p => p.1 == other) = some pr
      ∧ pr.2 = t := by
    unfold alget at ht
    cases hf : st.memory_timestamps.find? (fun p => p.1 == other) with
    | none => rw [hf] at ht; simp at ht
    | some pr =>
      rw [hf] at ht
      simp at ht
      exact ⟨pr, rfl, ht⟩
  have hpr1 : pr.1 = other := by
    have := List.find?_some hfind
    simpa using this
  have hprmem : pr ∈ st.memory_timestamps := List.mem_of_find?_eq_some hfind
  unfold add_memory_entry clean_old_sessions
  dsimp only
  constructor
  · intro hexp
    have hmem : other ∈ (st.memory_timestamps.filter
        (fun p => now - p.2 > ttl_seconds)).map (fun p => p.1) := by
      refine List.mem_map.mpr ⟨pr, ?_, hpr1⟩
      refine List.mem_filter.mpr ⟨hprmem, ?_⟩
      rw [hpr2]
      exact decide_eq_true hexp
    rw [alget_alset_ne _ session_id other _ hne, alget_alset_ne _ session_id other _ hne,
        alget_foldl_alpop_of_mem other _ _ hmem, alget_foldl_alpop_of_mem other _ _ hmem]
    exact ⟨rfl, rfl⟩
  · intro hok
    have hnotin : ∀ x ∈ (st.memory_timestamps.filter
        (fun p => now - p.2 > ttl_seconds)).map (fun p => p.1), x ≠ other := by
      intro x hx hxo
      subst hxo
      obtain ⟨q, hqf, hq1⟩ := List.mem_map.mp hx
      obtain ⟨hqmem, hqpred⟩ := List.mem_filter.mp hqf
      have hq2 : q.2 = t := alget_mem_unique x t st.memory_timestamps hnodup ht q hqmem hq1
      rw [hq2] at hqpred
      simp at hqpred
      omega
    rw [alget_alset_ne _ session_id other _ hne, alget_alset_ne _ session_id other _ hne,
        alget_foldl_alpop_of_ne other _ _ hnotin, alget_foldl_alpop_of_ne other _ _ hnotin]
    exact ⟨rfl, rfl⟩

/-- Witness for the C9 theorem: at write time 1000 with TTL 100, session
`a` (last active at 0) is swept while session `b` would be kept. -/
theorem ttl_sweep_on_write_witness :
    (1000 - 0 > 100 →
      alget (add_memory_entry 10 100 1000 ⟨[("a", [sampleEntry]), ("b", [sampleEntry2])],
        [("a", 0), ("b", 900)]⟩ "c" sampleEntry).memory_store "a" = none ∧
      alget (add_memory_entry 10 100 1000 ⟨[("a", [sampleEntry]), ("b", [sampleEntry2])],
        [("a", 0), ("b", 900)]⟩ "c" sampleEntry).memory_timestamps "a" = none) ∧
    (1000 - 0 ≤ 100 →
      alget (add_memory_entry 10 100 1000 ⟨[("a", [sampleEntry]), ("b", [sampleEntry2])],
        [("a", 0), ("b", 900)]⟩ "c" sampleEntry).memory_store "a"
        = alget (⟨[("a", [sampleEntry]), ("b", [sampleEntry2])],
            [("a", 0), ("b", 900)]⟩ : MemoryState).memory_store "a" ∧
      alget (add_memory_entry 10 100 1000 ⟨[("a", [sampleEntry]), ("b", [sampleEntry2])],
        [("a", 0), ("b", 900)]⟩ "c" sampleEntry).memory_timestamps "a"
        = alget (⟨[("a", [sampleEntry]), ("b", [sampleEntry2])],
            [("a", 0), ("b", 900)]⟩ : MemoryState).memory_timestamps "a") :=
  ttl_sweep_on_write 10 100 1000 ⟨[("a", [sampleEntry]), ("b", [sampleEntry2])],
    [("a", 0), ("b", 900)]⟩ "c" "a" sampleEntry 0 (by decide) rfl (by decide)

theorem formatEntryLines_flat_length :
    ∀ (h : List ConversationEntry), (h.flatMap formatEntryLines).length = 3 * h.length := by
  intro h
  induction h with
  | nil => rfl
  | cons e t ih =>
    rw [List.flatMap_cons, List.length_append, ih,
        show (formatEntryLines e).length = 3 from rfl, List.length_cons]
    ring

theorem formatEntryLines_flat_get :
    ∀ (h : List ConversationEntry) (i : Nat) (e : ConversationEntry), h.get? i = some e →
      (h.flatMap formatEntryLines).get? (3 * i)
          = some ("[" ++ strftimeHMS e.timestamp ++ "] User: " ++ e.query) ∧
      (h.flatMap formatEntryLines).get? (3 * i + 1)
          = some ("[" ++ strftimeHMS e.timestamp ++ "] Assistant: "
              ++ e.response.take 200 ++ "...") ∧
      (h.flatMap formatEntryLines).get? (3 * i + 2) = some "" := by
  intro h
  induction h with
  | nil => intro i e hi; simp at hi
  | cons a t ih =>
    intro i e hi
    cases i with
    | zero =>
      rw [List.get?_cons_zero] at hi
      have ha : a = e := by injection hi
      subst ha
      have hl0 : (formatEntryLines a).length = 3 := rfl
      refine ⟨?_, ?_, ?_⟩
      · rw [List.flatMap_cons, List.get?_append (by rw [hl0]; omega)]; rfl
      · rw [List.flatMap_cons, List.get?_append (by rw [hl0]; omega)]; rfl
      · rw [List.flatMap_cons, List.get?_append (by rw [hl0]; omega)]; rfl
    | succ j =>
      have hj : t.get? j = some e := by rw [List.get?_cons_succ] at hi; exact hi
      obtain ⟨h1, h2, h3⟩ := ih j e hj
      have hl : (formatEntryLines a).length = 3 := rfl
      refine ⟨?_, ?_, ?_⟩
      · rw [show 3 * (j + 1) = 3 * j + 3 from by ring, List.flatMap_cons,
            List.get?_append_right (by rw [hl]; omega), hl,
            show 3 * j + 3 - 3 = 3 * j from by omega]
        exact h1
      · rw [show 3 * (j + 1) + 1 = 3 * j + 4 from by ring, List.flatMap_cons,
            List.get?_append_right (by rw [hl]; omega), hl,
            show 3 * j + 4 - 3 = 3 * j + 1 from by omega]
        exact h2
      · rw [show 3 * (j + 1) + 2 = 3 * j + 5 from by ring, List.flatMap_cons,
            List.get?_append_right (by rw [hl]; omega), hl,
            show 3 * j + 5 - 3 = 3 * j + 2 from by omega]
        exact h3

/-- C4: `get_formatted_history` returns the empty string for an empty
history; for a non-empty history it returns the `"\n"`-join of a line
list holding, per entry and in stored (chronological) order, exactly one
`User:` line carrying the query and one `Assistant:` line carrying the
response truncated to 200 characters (the configured budget), plus the
empty separator line the source appends after each pair. -/
theorem formatted_history_pairs (m : Manager) (session_id : String) (limit : Option Nat)
    (h : List ConversationEntry)
    (hh : ConversationManager.get_history m session_id limit = .ok h) :
    (h = [] → ConversationManager.get_formatted_history m session_id limit = .ok "") ∧
    (h ≠ [] → ∃ lines : List String,
      ConversationManager.get_formatted_history m session_id limit
        = .ok (String.intercalate "\n" lines) ∧
      lines.length = 3 * h.length ∧
      ∀ i e, h.get? i = some e →
        lines.get? (3 * i) = some ("[" ++ strftimeHMS e.timestamp ++ "] User: " ++ e.query) ∧
        lines.get? (3 * i + 1)
          = some ("[" ++ strftimeHMS e.timestamp ++ "] Assistant: "
              ++ e.response.take 200 ++ "...") ∧
        lines.get? (3 * i + 2) = some "") := by
  have hfmt : ConversationManager.get_formatted_history m session_id limit
      = if h.isEmpty then .ok ""
        else .ok (String.intercalate "\n" (h.flatMap formatEntryLines)) := by
    unfold ConversationManager.get_formatted_history
    rw [hh, exc_bind_ok]
    split <;> rfl
  constructor
  · intro he
    subst he
    rw [hfmt]
    rfl
  · intro hne
    refine ⟨h.flatMap formatEntryLines, ?_, formatEntryLines_flat_length h, ?_⟩
    · rw [hfmt, if_neg (by simp [hne])]
    · intro i e hi
      exact formatEntryLines_flat_get h i e hi

/-- Witness for the C4 theorem on a one-entry session. -/
theorem formatted_history_pairs_witness :
    ([sampleEntry] = [] →
      ConversationManager.get_formatted_history sampleManager "s1" none = .ok "") ∧
    ([sampleEntry] ≠ [] → ∃ lines : List String,
      ConversationManager.get_formatted_history sampleManager "s1" none
        = .ok (String.intercalate "\n" lines) ∧
      lines.length = 3 * [sampleEntry].length ∧
      ∀ i e, [sampleEntry].get? i = some e →
        lines.get? (3 * i) = some ("[" ++ strftimeHMS e.timestamp ++ "] User: " ++ e.query) ∧
        lines.get? (3 * i + 1)
          = some ("[" ++ strftimeHMS e.timestamp ++ "] Assistant: "
              ++ e.response.take 200 ++ "...") ∧
        lines.get? (3 * i + 2) = some "") :=
  formatted_history_pairs sampleManager "s1" none [sampleEntry] rfl

theorem weather_api_http_error (api_key location : String) (http : HttpOracle)
    (resp : HttpResponse)
    (hkey : validate_api_key api_key "weather" = none)
    (hloc : ¬ pyStrip location = "")
    (hresp : http (weatherRequest api_key location) = .ok resp)
    (hc : 400 ≤ resp.statusCode ∧ resp.statusCode < 600) :
    weather_api api_key http location =
      (.ok (Json.obj [("error", .str ("Weather API error: " ++ weatherHttpErrMsg resp
              (raiseForStatusStr resp.statusCode (weatherRequest api_key location).url))),
            ("status", .str "error"),
            ("status_code", .num resp.statusCode)]),
       [weatherRequest api_key location]) := by
  unfold weather_api
  rw [hkey]
  dsimp only
  rw [if_neg hloc, hresp]
  dsimp only
  rw [if_pos hc]

theorem with_retry_first_ok (func : Nat → ToolStep) (mr : Nat) (j : Json)
    (rs : List HttpRequest) (h : func 0 = (.ok j, rs)) (hmr : 1 ≤ mr) :
    with_retry func mr = (.ok j, 1, rs) := by
  unfold with_retry
  obtain ⟨mr2, rfl⟩ : ∃ mr2, mr = mr2 + 1 := ⟨mr - 1, by omega⟩
  rw [with_retry_loop, h]
  rfl

/-- C7: a tool invocation whose HTTP response is any 4xx/5xx status makes
exactly one attempt and one outbound request — `raise_for_status` raises
`HTTPError`, which `weather_api` converts to an error envelope before the
`with_retry` loop can see a retryable exception — and the returned
envelope carries the status code. -/
theorem http_error_single_attempt (api_key location : String) (http : HttpOracle)
    (resp : HttpResponse)
    (hkey : validate_api_key api_key "weather" = none)
    (hloc : ¬ pyStrip location = "")
    (hresp : http (weatherRequest api_key location) = .ok resp)
    (hc : 400 ≤ resp.statusCode ∧ resp.statusCode < 600) :
    (with_retry (fun _ => weather_api api_key http location) 2).2.1 = 1 ∧
    (with_retry (fun _ => weather_api api_key http location) 2).2.2
      = [weatherRequest api_key location] ∧
    ∃ j, (with_retry (fun _ => weather_api api_key http location) 2).1 = .ok j ∧
      j.getField "status" = some (.str "error") ∧
      j.getField "status_code" = some (.num resp.statusCode) := by
  have hw := weather_api_http_error api_key location http resp hkey hloc hresp hc
  rw [with_retry_first_ok (fun _ => weather_api api_key http location) 2 _ _ hw (by omega)]
  exact ⟨rfl, rfl, _, rfl, rfl, rfl⟩

/-- Witness for the C7 theorem: a 404 response yields one attempt, one
request, and an envelope carrying status code 404. -/
theorem http_error_single_attempt_witness :
    (with_retry (fun _ => weather_api "testkey123" http404 "London") 2).2.1 = 1 ∧
    (with_retry (fun _ => weather_api "testkey123" http404 "London") 2).2.2
      = [weatherRequest "testkey123" "London"] ∧
    ∃ j, (with_retry (fun _ => weather_api "testkey123" http404 "London") 2).1 = .ok j ∧
      j.getField "status" = some (.str "error") ∧
      j.getField "status_code"
        = some (.num (⟨404, none, "Not Found"⟩ : HttpResponse).statusCode) :=
  http_error_single_attempt "testkey123" "London" http404 ⟨404, none, "Not Found"⟩
    rfl (by decide) rfl ⟨by decide, by decide⟩

/-- C6: a tool built by `create_api_tool` with any of the three query-key
authentication schemes and a non-empty credential sends exactly one
outbound request whose query parameters carry the credential under the
scheme-specific name, and whose header list is empty — the credential is
never placed in a header. -/
theorem query_key_auth_in_params (cfg : ApiToolCfg) (key pname : String) (http : HttpOracle)
    (kwargs : List (String × String))
    (hkey : cfg.api_key = some key) (hne : key ≠ "")
    (hscheme : (pyLower cfg.auth_type = "query-key" ∧ pname = "key") ∨
               (pyLower cfg.auth_type = "query-param-apikey" ∧ pname = "apikey") ∨
               (pyLower cfg.auth_type = "query-param-api_key" ∧ pname = "api_key")) :
    ∃ req, (api_tool_function cfg http kwargs).2 = [req] ∧
      req.headers = [] ∧
      alget req.params pname = some key := by
  unfold api_tool_function
  rw [hkey]
  dsimp only
  rw [if_pos hne]
  have main : ∀ (r : HttpRequest),
      (match http r with
        | .error e => (Json.obj [("error", .str e.msg), ("status", .str "failed")], [r])
        | .ok response =>
          if 400 ≤ response.statusCode ∧ response.statusCode < 600 then
            (Json.obj [("error", .str (raiseForStatusStr response.statusCode cfg.endpoint)),
                       ("status", .str "failed")], [r])
          else
            match response.jsonBody with
            | some j => (j, [r])
            | none => (Json.obj [("response", .str response.text)], [r])).2 = [r] := by
    intro r
    cases http r with
    | error e => rfl
    | ok response =>
      dsimp only
      by_cases hc : 400 ≤ response.statusCode ∧ response.statusCode < 600
      · rw [if_pos hc]
      · rw [if_neg hc]
        cases response.jsonBody <;> rfl
  rcases hscheme with ⟨h1, rfl⟩ | ⟨h1, rfl⟩ | ⟨h1, rfl⟩
  · rw [h1, if_neg (by decide), if_neg (by decide), if_pos rfl]
    dsimp only
    exact ⟨⟨cfg.endpoint, [], alset kwargs "key" key, 30⟩, main _, rfl,
      alget_alset_self kwargs "key" key⟩
  · rw [h1, if_neg (by decide), if_neg (by decide), if_neg (by decide), if_pos rfl]
    dsimp only
    exact ⟨⟨cfg.endpoint, [], alset kwargs "apikey" key, 30⟩, main _, rfl,
      alget_alset_self kwargs "apikey" key⟩
  · rw [h1, if_neg (by decide), if_neg (by decide), if_neg (by decide), if_neg (by decide),
        if_pos rfl]
    dsimp only
    exact ⟨⟨cfg.endpoint, [], alset kwargs "api_key" key, 30⟩, main _, rfl,
      alget_alset_self kwargs "api_key" key⟩

/-- Witness for the C6 theorem with a concrete query-key configuration. -/
theorem query_key_auth_in_params_witness :
    ∃ req, (api_tool_function cfgQueryKey http404 [("q", "London")]).2 = [req] ∧
      req.headers = [] ∧
      alget req.params "key" = some "testkey123" :=
  query_key_auth_in_params cfgQueryKey "testkey123" "key" http404 [("q", "London")]
    rfl (by decide) (Or.inl ⟨rfl, rfl⟩)

/-- C5 counterexample: a `create_api_tool` tool whose credential variable
was absent still makes the outbound network request (with no
authentication applied), and the failure envelope it then returns carries
`status: "failed"`, not an authentication error. -/
theorem missing_credential_counterexample :
    (api_tool_function cfgNoKey http401 []).2 ≠ [] ∧
    (api_tool_function cfgNoKey http401 []).2.length = 1 ∧
    (api_tool_function cfgNoKey http401 []).1.getField "status" = some (.str "failed") := by
  refine ⟨?_, rfl, rfl⟩
  rw [show (api_tool_function cfgNoKey http401 []).2
        = [⟨"https://newsapi.org/v2/everything", [], [], 30⟩] from rfl]
  simp

theorem api_tool_function_one_request (cfg : ApiToolCfg) (http : HttpOracle)
    (kwargs : List (String × String)) :
    ∃ r, (api_tool_function cfg http kwargs).2 = [r] := by
  unfold api_tool_function
  dsimp only
  have main : ∀ (r : HttpRequest), (match http r with
      | .error e => (Json.obj [("error", .str e.msg), ("status", .str "failed")], [r])
      | .ok response =>
        if 400 ≤ response.statusCode ∧ response.statusCode < 600 then
          (Json.obj [("error", .str (raiseForStatusStr response.statusCode cfg.endpoint)),
                     ("status", .str "failed")], [r])
        else
          match response.jsonBody with
          | some j => (j, [r])
          | none => (Json.obj [("response", .str response.text)], [r])).2 = [r] := by
    intro r
    cases http r with
    | error e => rfl
    | ok response =>
      dsimp only
      by_cases hc : 400 ≤ response.statusCode ∧ response.statusCode < 600
      · rw [if_pos hc]
      · rw [if_neg hc]
        cases response.jsonBody <;> rfl
  exact ⟨_, main _⟩

/-- C5 (amended): tools built on the template path (`weather_api`) do
validate the credential at call time — a missing or too-short key yields a
`status: "error"` envelope whose message is the stringified
authentication error, with no outbound request. Tools built by
`create_api_tool`, however, never check the credential at invocation
time: with an absent key the outbound request is still made, without
authentication. -/
theorem missing_credential_amended (api_key location : String) (http http2 : HttpOracle)
    (cfg : ApiToolCfg) (kwargs : List (String × String))
    (hshort : api_key = "" ∨ api_key.length < 10)
    (_hnone : cfg.api_key = none) :
    (∃ errStr, validate_api_key api_key "weather" = some errStr ∧
      weather_api api_key http location =
        (.ok (Json.obj [("error", .str errStr), ("status", .str "error")]), [])) ∧
    ∃ r, (api_tool_function cfg http2 kwargs).2 = [r] := by
  constructor
  · by_cases he : api_key = ""
    · have hv : validate_api_key api_key "weather" = some (apiKeyErrorStr "weather" false) := by
        unfold validate_api_key
        rw [if_pos he]
      refine ⟨apiKeyErrorStr "weather" false, hv, ?_⟩
      unfold weather_api
      rw [hv]
    · have hlen : api_key.length < 10 := by
        rcases hshort with h | h
        · exact absurd h he
        · exact h
      have hv : validate_api_key api_key "weather" = some (apiKeyErrorStr "weather" true) := by
        unfold validate_api_key
        rw [if_neg he, if_pos hlen]
      refine ⟨apiKeyErrorStr "weather" true, hv, ?_⟩
      unfold weather_api
      rw [hv]
  · exact api_tool_function_one_request cfg http2 kwargs

/-- Witness for the amended C5 theorem: an empty weather key and a
keyless `create_api_tool` configuration. -/
theorem missing_credential_amended_witness :
    (∃ errStr, validate_api_key "" "weather" = some errStr ∧
      weather_api "" httpTimeout "London" =
        (.ok (Json.obj [("error", .str errStr), ("status", .str "error")]), [])) ∧
    ∃ r, (api_tool_function cfgNoKey http401 []).2 = [r] :=
  missing_credential_amended "" "London" httpTimeout http401 cfgNoKey []
    (Or.inl rfl) rfl

/-- C8 counterexample: a `create_api_tool` tool returns the parsed 2xx
JSON body as-is, so a perfectly ordinary success carries no `status`
field at all — the envelope contract does not hold for these tools. -/
theorem raw_json_no_status_counterexample :
    (api_tool_function cfgBearer http200obj []).1
      = Json.obj [("articles", Json.arr [])] ∧
    (api_tool_function cfgBearer http200obj []).1.getField "status" = none :=
  ⟨rfl, rfl⟩

theorem buildWeatherDisplay_shape (fields : List (String × Json)) (d : Json)
    (h : buildWeatherDisplay (Json.obj fields) = .ok d) :
    ∃ s, d = Json.obj (alset fields "display" (Json.str s)) := by
  unfold buildWeatherDisplay at h
  dsimp only at h
  cases h1 : jget (Json.obj fields) "location" with
  | error e => rw [h1, exc_bind_error] at h; exact Except.noConfusion h
  | ok location_info =>
  rw [h1, exc_bind_ok] at h
  cases h2 : jget (Json.obj fields) "current" with
  | error e => rw [h2, exc_bind_error] at h; exact Except.noConfusion h
  | ok current =>
  rw [h2, exc_bind_ok] at h
  cases h3 : jget location_info "name" with
  | error e => rw [h3, exc_bind_error] at h; exact Except.noConfusion h
  | ok name =>
  rw [h3, exc_bind_ok] at h
  cases h4 : jget location_info "country" with
  | error e => rw [h4, exc_bind_error] at h; exact Except.noConfusion h
  | ok country =>
  rw [h4, exc_bind_ok] at h
  cases h5 : jget current "temp_c" with
  | error e => rw [h5, exc_bind_error] at h; exact Except.noConfusion h
  | ok temp_c =>
  rw [h5, exc_bind_ok] at h
  cases h6 : jget current "temp_f" with
  | error e => rw [h6, exc_bind_error] at h; exact Except.noConfusion h
  | ok temp_f =>
  rw [h6, exc_bind_ok] at h
  cases h7 : jget current "condition" with
  | error e => rw [h7, exc_bind_error] at h; exact Except.noConfusion h
  | ok condition =>
  rw [h7, exc_bind_ok] at h
  cases h8 : jget condition "text" with
  | error e => rw [h8, exc_bind_error] at h; exact Except.noConfusion h
  | ok cond_text =>
  rw [h8, exc_bind_ok] at h
  cases h9 : jget current "wind_kph" with
  | error e => rw [h9, exc_bind_error] at h; exact Except.noConfusion h
  | ok wind_kph =>
  rw [h9, exc_bind_ok] at h
  cases h10 : jget current "wind_dir" with
  | error e => rw [h10, exc_bind_error] at h; exact Except.noConfusion h
  | ok wind_dir =>
  rw [h10, exc_bind_ok] at h
  cases h11 : jget current "humidity" with
  | error e => rw [h11, exc_bind_error] at h; exact Except.noConfusion h
  | ok humidity =>
  rw [h11, exc_bind_ok] at h
  cases h12 : jget current "feelslike_c" with
  | error e => rw [h12, exc_bind_error] at h; exact Except.noConfusion h
  | ok feelslike_c =>
  rw [h12, exc_bind_ok] at h
  cases h13 : jget current "feelslike_f" with
  | error e => rw [h13, exc_bind_error] at h; exact Except.noConfusion h
  | ok feelslike_f =>
  rw [h13, exc_bind_ok] at h
  exact ⟨_, (Except.ok.inj h).symm⟩

theorem alset_no_error (fs : List (String × Json)) (v : Json)
    (h : fs.any (fun p => p.1 == "error") = false) :
    (alset fs "display" v).any (fun p => p.1 == "error") = false := by
  unfold alset
  split
  next hc =>
    clear hc
    induction fs with
    | nil => rfl
    | cons a t ih =>
      rw [List.any_cons, Bool.or_eq_false_iff] at h
      rw [List.map_cons, List.any_cons, Bool.or_eq_false_iff]
      constructor
      · cases hd : (a.1 == "display") with
        | true =>
          rw [if_pos rfl]
          rfl
        | false =>
          rw [if_neg (by simp)]
          exact h.1
      · exact ih h.2
  next hc =>
    clear hc
    rw [List.any_append, h]
    rfl

theorem format_response_status (fs : List (String × Json))
    (h : fs.any (fun p => p.1 == "error") = false) :
    (format_response (Json.obj fs)).getField "status" = some (.str "success") := by
  unfold format_response
  dsimp only
  rw [if_neg (by simp [h])]
  by_cases hd : fs.any (fun p => p.1 == "display") = true
  · rw [if_pos hd]
    rfl
  · rw [if_neg hd]
    by_cases hl : fs.length > 0
    · rw [if_pos hl]
      rfl
    · rw [if_neg hl]
      rfl

theorem weather_api_statusOK (api_key location : String) (http : HttpOracle)
    (hbody : ∀ req resp fs, http req = .ok resp →
      ¬(400 ≤ resp.statusCode ∧ resp.statusCode < 600) →
      resp.jsonBody = some (Json.obj fs) →
      fs.any (fun p => p.1 == "error") = false) :
    (∃ j, (weather_api api_key http location).1 = .ok j ∧ statusOK j) ∨
    (∃ msg, (weather_api api_key http location).1 = .error (.timeout msg)) ∨
    (∃ msg, (weather_api api_key http location).1 = .error (.connError msg)) := by
  unfold weather_api
  cases hv : validate_api_key api_key "weather" with
  | some errStr => exact Or.inl ⟨_, rfl, Or.inr rfl⟩
  | none =>
    dsimp only
    by_cases hl : pyStrip location = ""
    · rw [if_pos hl]
      exact Or.inl ⟨_, rfl, Or.inr rfl⟩
    · rw [if_neg hl]
      cases hh : http (weatherRequest api_key location) with
      | error e =>
        cases e with
        | timeoutExc msg => exact Or.inr (Or.inl ⟨msg, rfl⟩)
        | connExc msg => exact Or.inr (Or.inr ⟨msg, rfl⟩)
      | ok response =>
        dsimp only
        by_cases hc : 400 ≤ response.statusCode ∧ response.statusCode < 600
        · rw [if_pos hc]
          exact Or.inl ⟨_, rfl, Or.inr rfl⟩
        · rw [if_neg hc]
          cases hjb : response.jsonBody with
          | none => exact Or.inl ⟨_, rfl, Or.inr rfl⟩
          | some data =>
            dsimp only
            by_cases hml : (data.getField "location").isNone ∨ (data.getField "current").isNone
            · rw [if_pos hml]
              exact Or.inl ⟨_, rfl, Or.inr rfl⟩
            · rw [if_neg hml]
              cases data with
              | str s1 => exact absurd (Or.inl rfl) hml
              | num n1 => exact absurd (Or.inl rfl) hml
              | bool b1 => exact absurd (Or.inl rfl) hml
              | null => exact absurd (Or.inl rfl) hml
              | arr xs => exact absurd (Or.inl rfl) hml
              | obj fields =>
                cases hbw : buildWeatherDisplay (Json.obj fields) with
                | error excStr => exact Or.inl ⟨_, rfl, Or.inr rfl⟩
                | ok dataD =>
                  obtain ⟨s, rfl⟩ := buildWeatherDisplay_shape fields dataD hbw
                  refine Or.inl ⟨_, rfl, Or.inl ?_⟩
                  exact format_response_status _ (alset_no_error fields _ (hbody _ _ _ hh hc hjb))

theorem with_retry_loop_statusOK (func : Nat → ToolStep) (max_retries : Nat)
    (hfunc : ∀ n, (∃ j, (func n).1 = .ok j ∧ statusOK j) ∨
      (∃ msg, (func n).1 = .error (.timeout msg)) ∨
      (∃ msg, (func n).1 = .error (.connError msg))) :
    ∀ fuel calls reqs lastError, (fuel = 0 → lastError.isSome) →
      ∃ j, (with_retry_loop func max_retries fuel calls reqs lastError).1 = .ok j ∧
        statusOK j := by
  intro fuel
  induction fuel with
  | zero =>
    intro calls reqs lastError h0
    cases lastError with
    | none => simp at h0
    | some e => exact ⟨retryExhaustedDict max_retries e.msg, rfl, Or.inr rfl⟩
  | succ n ih =>
    intro calls reqs lastError h0
    rcases hfunc calls with ⟨j, hj, hs⟩ | ⟨msg, hm⟩ | ⟨msg, hm⟩
    · have hfc : func calls = (.ok j, (func calls).2) := by
        rw [← hj]
        rfl
      rw [with_retry_loop, hfc]
      exact ⟨j, rfl, hs⟩
    · have hfc : func calls = (.error (.timeout msg), (func calls).2) := by
        rw [← hm]
        rfl
      rw [with_retry_loop, hfc]
      exact ih (calls + 1) (reqs ++ (func calls).2) (some (.timeout msg)) (fun _ => rfl)
    · have hfc : func calls = (.error (.connError msg), (func calls).2) := by
        rw [← hm]
        rfl
      rw [with_retry_loop, hfc]
      exact ih (calls + 1) (reqs ++ (func calls).2) (some (.connError msg)) (fun _ => rfl)

/-- C8 (amended): tools built on the template path do satisfy the
envelope contract: a `with_retry`-wrapped `weather_api` invocation
returns, for every backend behaviour (any mix of timeouts, connection
errors, HTTP errors, malformed bodies and successes whose non-4xx/5xx
JSON dict bodies carry no top-level `error` key), a JSON object with a
`status` field
equal to `"success"` or `"error"`. Tools built by `create_api_tool` do
not: they return the raw parsed JSON on success (see the
counterexample), `{"response": text}` for non-JSON bodies, and
`status: "failed"` envelopes on request errors. The no-`error`-key
proviso is forced by `format_response`, which passes any dict containing
an `error` key through unchanged, without a `status` field. -/
theorem template_envelope_status_amended (api_key location : String) (http : HttpOracle)
    (max_retries : Nat) (hmr : 1 ≤ max_retries)
    (hbody : ∀ req resp fs, http req = .ok resp →
      ¬(400 ≤ resp.statusCode ∧ resp.statusCode < 600) →
      resp.jsonBody = some (Json.obj fs) →
      fs.any (fun p => p.1 == "error") = false) :
    ∃ j, (with_retry (fun _ => weather_api api_key http location) max_retries).1 = .ok j ∧
      (j.getField "status" = some (.str "success") ∨
       j.getField "status" = some (.str "error")) := by
  have hfunc : ∀ n : Nat, (∃ j, ((fun (_ : Nat) => weather_api api_key http location) n).1 = .ok j ∧
      statusOK j) ∨
      (∃ msg, ((fun (_ : Nat) => weather_api api_key http location) n).1 = .error (.timeout msg)) ∨
      (∃ msg, ((fun (_ : Nat) => weather_api api_key http location) n).1 = .error (.connError msg)) :=
    fun _ => weather_api_statusOK api_key location http hbody
  exact with_retry_loop_statusOK _ max_retries hfunc max_retries 0 [] none
    (fun hz => absurd hz (by omega))

/-- Witness for the amended C8 theorem: an always-timing-out oracle with
the default retry budget yields a `status: "error"` envelope. -/
theorem template_envelope_status_amended_witness :
    ∃ j, (with_retry (fun _ => weather_api "testkey123" httpTimeout "London") 2).1 = .ok j ∧
      (j.getField "status" = some (.str "success") ∨
       j.getField "status" = some (.str "error")) :=
  template_envelope_status_amended "testkey123" "London" httpTimeout 2 (by omega)
    (fun req resp fs h1 _ _ => nomatch h1)
